import Mathlib

/-!
Verification of the optimistic concurrent-secret library against its
implementation.  The development shallowly embeds the hand-written
coordination logic of `src/index.js` (ConcurrentSecret, CachedSecret)
and the fake secret-manager server of `src/fake-server/index.js`
(the in-memory reference implementation of the remote store used by the
test-suite) as pure Lean functions with explicit state passing.

Modelling conventions, stated once here:
- JavaScript asynchronous calls are sequentialised: every remote call is a
  pure function from the server database to a result plus an updated
  database.  Interleavings with other writers are modelled by invoking a
  server operation between two client operations.
- randomBytes-generated etags are modelled by an explicit stream of fresh
  etag strings carried in the environment and consumed in call order.
- Timestamps are Nat milliseconds.  ISO-8601 timestamp strings are
  modelled as decimal millisecond strings: `encodeTime` plays the role of
  Date.prototype.toJSON, `parseDateMs` the role of the Date constructor
  (a non-numeric or absent string yields an invalid date, that is `none`).
- Byte buffers carry UTF-8 text in every code path the claims touch, so
  payload bytes are modelled as `String`; Buffer.from on a non
  string/buffer value throws TypeError, modelled by `bufferFrom`.
- protobuf timestamp records (seconds/nanos) are flattened to a single
  Nat millisecond value; versionDestroyTtl is likewise a millisecond
  duration.
- Field `metadata` of the fake store (request metadata bookkeeping) and
  gax call options (`_getCallOptions`) carry no behaviour and are elided.
-/

namespace GCSecret

/-- Annotation maps (JS plain objects with string values) as association
lists; the first binding of a key wins, mirroring object key lookup. -/
abbrev AnnMap := List (String × String)

/-- Object property lookup `obj[k]`. -/
def lookupAnn (m : AnnMap) (k : String) : Option String :=
  match m with
  | [] => none
  | (k2, v) :: rest => if k2 = k then some v else lookupAnn rest k

/-- Spread-with-override `\x7b ...obj, k: v \x7d`: replaces the binding of
`k` when present, otherwise appends it. -/
def setAnn (m : AnnMap) (k : String) (v : String) : AnnMap :=
  match m with
  | [] => [(k, v)]
  | (k2, v2) :: rest => if k2 = k then (k, v) :: rest else (k2, v2) :: setAnn rest k v

/-- Rest-destructuring `const \x7b k, ...rest \x7d = obj`: drops the
binding of `k`. -/
def eraseAnn (m : AnnMap) (k : String) : AnnMap :=
  match m with
  | [] => []
  | (k2, v2) :: rest => if k2 = k then eraseAnn rest k else (k2, v2) :: eraseAnn rest k

/-- Date.prototype.toJSON / toISOString for our decimal-string model of
timestamps. -/
def encodeTime (t : Nat) : String := toString t

/-- Accumulator splitter over character lists (structural recursion, so
that concrete runs reduce inside the kernel). -/
def splitCharAux (c : Char) : List Char → List Char → List (List Char)
  | [], acc => [acc.reverse]
  | x :: xs, acc =>
    if x = c then acc.reverse :: splitCharAux c xs []
    else splitCharAux c xs (x :: acc)

/-- The JS split on a slash, name.split(slash). -/
def splitSlash (s : String) : List String :=
  (splitCharAux '/' s.data []).map List.asString

/-- Decimal value of a digit list. -/
def digitsToNat (l : List Char) : Nat :=
  l.foldl (fun n c => n * 10 + (c.toNat - 48)) 0

/-- The `new Date(string)` parse followed by the isNaN validity test:
absent or non-numeric annotation values give an invalid date (`none`),
an all-digit string parses as milliseconds per the timestamp model. -/
def parseDateMs : Option String → Option Nat
  | none => none
  | some s => if s.data ≠ [] ∧ s.data.all Char.isDigit then some (digitsToNat s.data) else none

/-- The fake server resource-name guard
`/^projects\/\d+\/secrets\/[\w-]+$/`. -/
def validSecretName (s : String) : Bool :=
  match splitSlash s with
  | [a, b, c, d] =>
    a = "projects" && b ≠ "" && b.data.all Char.isDigit && c = "secrets" &&
      d ≠ "" && d.data.all (fun ch => ch.isAlphanum || ch = '_' || ch = '-')
  | _ => false

/-- node posix path.join restricted to plain nonempty segments. -/
def pathJoin : List String → String
  | [] => ""
  | [x] => x
  | x :: xs => x ++ "/" ++ pathJoin xs

/-- Reconstruction of the parent secret name from a version name:
`parts = name.split(slash); parts.splice(-2); path.join(...parts)`. -/
def parentOf (name : String) : String :=
  pathJoin ((splitSlash name).dropLast.dropLast)

/-- Last path segment of a version name, the `version` binding of
`const [, version] = parts.splice(-2)`. -/
def versionPartOf (name : String) : String :=
  ((splitSlash name).getLast?).getD ""

/-- Lexicographic code-unit comparison of character lists (structural,
so concrete comparisons reduce inside the kernel). -/
def strLtb : List Char → List Char → Bool
  | [], [] => false
  | [], _ :: _ => true
  | _ :: _, [] => false
  | a :: as, b :: bs => if a < b then true else if b < a then false else strLtb as bs

/-- The JS string comparison a < b (code-unit lexicographic order), as
used by `latestVersionData.name > this.versionName`. -/
def strLt (a b : String) : Prop := strLtb a.data b.data = true

instance (a b : String) : Decidable (strLt a b) := by
  unfold strLt
  exact inferInstance

/-- SecretVersion lifecycle states. -/
inductive VersionState where
  | enabled
  | disabled
  | destroyed
  deriving Repr, DecidableEq

/-- ISecretVersion metadata as produced by the fake server. -/
structure Version where
  name : String
  etag : String
  state : VersionState
  createTime : Nat
  scheduledDestroyTime : Option Nat := none
  destroyTime : Option Nat := none
  deriving Repr, DecidableEq

/-- A stored fake version: metadata plus the optional payload bytes. -/
structure FakeVersion where
  version : Version
  data : Option String := none
  deriving Repr, DecidableEq

/-- ISecret metadata, restricted to the fields the coordination logic
reads or writes. -/
structure SecretMeta where
  name : String
  etag : String
  annotations : AnnMap
  versionDestroyTtl : Option Nat := none
  deriving Repr, DecidableEq

/-- One record of the fake-server db: secret metadata plus the version
list, newest first (AddSecretVersion unshifts). -/
structure FakeSecretData where
  secret : SecretMeta
  versions : List FakeVersion
  deriving Repr, DecidableEq

/-- The fake-server db, a map from secret name to record. -/
abbrev Db := List (String × FakeSecretData)

/-- db.get. -/
def dbGet (db : Db) (name : String) : Option FakeSecretData :=
  match db with
  | [] => none
  | (k, v) :: rest => if k = name then some v else dbGet rest name

/-- db.set on an existing key (all writes in scope mutate records already
present). -/
def dbSet (db : Db) (name : String) (v : FakeSecretData) : Db :=
  match db with
  | [] => [(name, v)]
  | (k, v2) :: rest => if k = name then (name, v) :: rest else (k, v2) :: dbSet rest name v

/-- gRPC status codes used by the library.  Modelled from the spec: the
file src/fake-server/rpc-codes.js is referenced but not among the
sources; the values below are the standard gRPC status codes, matching
both the README (9 FAILED_PRECONDITION on etag mismatch, 5 NOT_FOUND)
and the literal 5 used in an earlier revision of the client. -/
def RpcCodes.INVALID_ARGUMENT : Nat := 3

/-- gRPC NOT_FOUND status code (see RpcCodes.INVALID_ARGUMENT). -/
def RpcCodes.NOT_FOUND : Nat := 5

/-- gRPC ALREADY_EXISTS status code (see RpcCodes.INVALID_ARGUMENT). -/
def RpcCodes.ALREADY_EXISTS : Nat := 6

/-- gRPC FAILED_PRECONDITION status code (see
RpcCodes.INVALID_ARGUMENT). -/
def RpcCodes.FAILED_PRECONDITION : Nat := 9

/-- Errors observable by a caller of the client, distinguished by the JS
error class.  Messages are elided; the machine-checkable `code`
properties are kept. -/
inductive ClientError where
  /-- FakeRpcError delivered over the wire, carrying a gRPC code. -/
  | rpc (code : Nat)
  /-- ConcurrentSecretError thrown by ConcurrentSecret.lock, carrying a
  gRPC status code. -/
  | concurrentSecretError (code : Nat)
  /-- A JS TypeError (Buffer.from on an invalid value, property access on
  null). -/
  | typeError
  /-- An error thrown by a caller-supplied producer function. -/
  | userError (tag : String)
  deriving Repr, DecidableEq

/-- The `code` property read by `err.code` checks; absent (undefined) on
plain JS errors. -/
def errCode : ClientError → Option Nat
  | .rpc c => some c
  | .concurrentSecretError c => some c
  | .typeError => none
  | .userError _ => none

/-- Remote procedure names, recorded so that theorems can speak about
which calls reached the store. -/
inductive Call where
  | getSecret
  | updateSecret
  | getSecretVersion
  | addSecretVersion
  | destroySecretVersion
  | accessSecretVersion
  deriving Repr, DecidableEq

/-- The world outside the client instance: the fake-server db, the stream
of fresh etags randomBytes will produce (consumed in call order), and a
log of the calls that reached the server, newest first. -/
structure Env where
  db : Db
  etags : List String
  log : List Call := []
  deriving Repr, DecidableEq

/-- Draw the next fresh etag from the stream. -/
def Env.takeFresh (env : Env) : String × Env :=
  match env.etags with
  | [] => ("\"exhausted\"", env)
  | e :: rest => (e, { env with etags := rest })

/-- Record a call that reached the server. -/
def Env.logCall (env : Env) (c : Call) : Env :=
  { env with log := c :: env.log }

/-- Number of calls of one kind in a log. -/
def countCall (c : Call) (log : List Call) : Nat :=
  log.countP (fun x => x = c)

/-- The truthiness guard `payload.etag && payload.etag !== current` used
by every conditioned write of the fake server. -/
def etagMismatch (reqEtag : Option String) (current : String) : Prop :=
  match reqEtag with
  | none => False
  | some e => e ≠ "" ∧ e ≠ current

instance (reqEtag : Option String) (current : String) :
    Decidable (etagMismatch reqEtag current) := by
  unfold etagMismatch
  match reqEtag with
  | none => exact inferInstance
  | some _ => exact inferInstance

/-- The request body of client._updateSecret: the fields of ISecret that
the client sends. -/
structure SecretPatch where
  name : String
  etag : Option String := none
  annotations : Option AnnMap := none
  deriving Repr, DecidableEq

/-- Fake server GetSecret: name-pattern guard, db lookup, respond with a
copy of the stored metadata. -/
def GetSecret (env : Env) (name : String) : Except ClientError SecretMeta × Env :=
  let env := env.logCall .getSecret
  if validSecretName name then
    match dbGet env.db name with
    | none => (.error (.rpc RpcCodes.NOT_FOUND), env)
    | some fs => (.ok fs.secret, env)
  else
    (.error (.rpc RpcCodes.INVALID_ARGUMENT), env)

/-- Fake server UpdateSecret: db lookup by patch name, conditioned on the
etag when one is supplied, copies the fields named by the update mask
onto the stored secret (the only masked field in scope is annotations),
then rotates the stored etag to a fresh value and responds with the
updated secret. -/
def UpdateSecret (env : Env) (patch : SecretPatch) (maskPaths : List String) :
    Except ClientError SecretMeta × Env :=
  let env := env.logCall .updateSecret
  match dbGet env.db patch.name with
  | none => (.error (.rpc RpcCodes.NOT_FOUND), env)
  | some fs =>
    if etagMismatch patch.etag fs.secret.etag then
      (.error (.rpc RpcCodes.FAILED_PRECONDITION), env)
    else
      let secret1 :=
        if maskPaths.contains "annotations" then
          { fs.secret with annotations := patch.annotations.getD [] }
        else fs.secret
      let (fresh, env) := env.takeFresh
      let secret2 := { secret1 with etag := fresh }
      (.ok secret2, { env with db := dbSet env.db patch.name { fs with secret := secret2 } })

/-- Fake server GetSecretVersion: resolves `latest` to the head of the
version list, any other name by exact match, responding NOT_FOUND when
absent. -/
def GetSecretVersion (env : Env) (name : String) : Except ClientError Version × Env :=
  let env := env.logCall .getSecretVersion
  let parent := parentOf name
  match dbGet env.db parent with
  | none => (.error (.rpc RpcCodes.NOT_FOUND), env)
  | some fs =>
    let fv? :=
      if versionPartOf name = "latest" then fs.versions.head?
      else fs.versions.find? (fun v => v.version.name = name)
    match fv? with
    | none => (.error (.rpc RpcCodes.NOT_FOUND), env)
    | some fv => (.ok fv.version, env)

/-- The response of AccessSecretVersion: version name plus payload
data. -/
structure SecretData where
  name : String
  data : Option String
  deriving Repr, DecidableEq

/-- Fake server AccessSecretVersion: same resolution as GetSecretVersion
but responds with the payload. -/
def AccessSecretVersion (env : Env) (name : String) : Except ClientError SecretData × Env :=
  let env := env.logCall .accessSecretVersion
  let parent := parentOf name
  match dbGet env.db parent with
  | none => (.error (.rpc RpcCodes.NOT_FOUND), env)
  | some fs =>
    let fv? :=
      if versionPartOf name = "latest" then fs.versions.head?
      else fs.versions.find? (fun v => v.version.name = name)
    match fv? with
    | none => (.error (.rpc RpcCodes.NOT_FOUND), env)
    | some fv => (.ok { name := fv.version.name, data := fv.data }, env)

/-- Fake server AddSecretVersion: name-pattern guard on the parent, new
version named `parent/versions/(length+1)`, enabled, fresh etag,
unshifted onto the version list. -/
def AddSecretVersion (env : Env) (parent : String) (data : Option String) (now : Nat) :
    Except ClientError Version × Env :=
  let env := env.logCall .addSecretVersion
  if validSecretName parent then
    match dbGet env.db parent with
    | none => (.error (.rpc RpcCodes.NOT_FOUND), env)
    | some fs =>
      let (fresh, env) := env.takeFresh
      let fakeVersion : Version :=
        { name := pathJoin [parent, "versions", toString (fs.versions.length + 1)]
          etag := fresh
          state := .enabled
          createTime := now }
      let fv : FakeVersion := { version := fakeVersion, data := data }
      (.ok fakeVersion,
        { env with db := dbSet env.db parent { fs with versions := fv :: fs.versions } })
  else
    (.error (.rpc RpcCodes.INVALID_ARGUMENT), env)

/-- Fake server DestroySecretVersion: fails FAILED_PRECONDITION when the
version is already destroyed, already scheduled for destruction, or the
supplied etag mismatches; otherwise rotates the version etag and either
disables it with a scheduled destroy time (secret has a
versionDestroyTtl) or destroys it immediately. -/
def DestroySecretVersion (env : Env) (name : String) (reqEtag : Option String) (now : Nat) :
    Except ClientError Version × Env :=
  let env := env.logCall .destroySecretVersion
  let parent := parentOf name
  match dbGet env.db parent with
  | none => (.error (.rpc RpcCodes.NOT_FOUND), env)
  | some fs =>
    match fs.versions.find? (fun v => v.version.name = name) with
    | none => (.error (.rpc RpcCodes.NOT_FOUND), env)
    | some fv =>
      if fv.version.state = .destroyed then
        (.error (.rpc RpcCodes.FAILED_PRECONDITION), env)
      else if fv.version.scheduledDestroyTime ≠ none then
        (.error (.rpc RpcCodes.FAILED_PRECONDITION), env)
      else if etagMismatch reqEtag fv.version.etag then
        (.error (.rpc RpcCodes.FAILED_PRECONDITION), env)
      else
        let (fresh, env) := env.takeFresh
        let version2 :=
          match fs.secret.versionDestroyTtl with
          | some ttl =>
            { fv.version with
                etag := fresh
                state := .disabled
                scheduledDestroyTime := some (now + ttl) }
          | none =>
            { fv.version with
                etag := fresh
                state := .destroyed
                destroyTime := some now }
        let versions2 := fs.versions.map (fun v =>
          if v.version.name = name then { v with version := version2 } else v)
        (.ok version2,
          { env with db := dbSet env.db parent { fs with versions := versions2 } })

/-- The value a caller-supplied producer function resolved with: a
string, a byte buffer, or any other JS value (tagged). -/
inductive JsValue where
  | str (s : String)
  | buf (b : String)
  | other (tag : String)
  deriving Repr, DecidableEq

/-- Buffer.from: accepts strings and buffers, throws TypeError on any
other value. -/
def bufferFrom : JsValue → Except ClientError String
  | .str s => .ok s
  | .buf b => .ok b
  | .other _ => .error .typeError

/-- The JS toString conversion applied to a producer result. -/
def JsValue.asString : JsValue → String
  | .str s => s
  | .buf b => b
  | .other t => t

deriving instance DecidableEq for Except

/-- Client instance state of class ConcurrentSecret: the fields `name`,
`latestVersionName`, `secret` (the locked-secret snapshot),
`pendingSecret` (the cached in-flight getSecret promise, holding a
settled outcome in this sequential model), `updatedVersionName` and the
gracePeriodMs option. -/
structure ConcurrentSecret where
  name : String
  latestVersionName : String
  secret : Option SecretMeta := none
  pendingSecret : Option (Except ClientError SecretMeta) := none
  updatedVersionName : Option String := none
  gracePeriodMs : Nat := 60000
  deriving Repr, DecidableEq

/-- The constructor `new ConcurrentSecret(name, client, options)`:
latestVersionName is path.join(name, "/versions/latest") and the default
grace period is 60000 ms. -/
def mkConcurrentSecret (name : String) (gracePeriodMs : Nat := 60000) : ConcurrentSecret :=
  { name := name
    latestVersionName := name ++ "/versions/latest"
    gracePeriodMs := gracePeriodMs }

/-- Method `_prepare`: returns the cached pending read when one exists,
otherwise issues getSecret and caches its settled outcome (a rejection
stays cached too, as the rejected promise would). -/
def ConcurrentSecret.prepare (cs : ConcurrentSecret) (env : Env) :
    Except ClientError SecretMeta × ConcurrentSecret × Env :=
  match cs.pendingSecret with
  | some r => (r, cs, env)
  | none =>
    let (r, env) := GetSecret env cs.name
    (r, { cs with pendingSecret := some r }, env)

/-- Method `_updateSecret`: wraps client.updateSecret, masking in the
annotations field exactly when the patch carries annotations. -/
def clientUpdateSecret (env : Env) (patch : SecretPatch) :
    Except ClientError SecretMeta × Env :=
  let paths := match patch.annotations with
    | some _ => ["annotations"]
    | none => []
  UpdateSecret env patch paths

/-- Tail of ConcurrentSecret.lock: the conditioned write that sets the
locked_at annotation to now, preserving the other annotations, and
stores the result as the locked-secret snapshot. -/
def ConcurrentSecret.lockWrite (cs : ConcurrentSecret) (env : Env)
    (secret : SecretMeta) (now : Nat) :
    Except ClientError SecretMeta × ConcurrentSecret × Env :=
  let (r, env) := clientUpdateSecret env
    { name := secret.name
      etag := some secret.etag
      annotations := some (setAnn secret.annotations "locked_at" (encodeTime now)) }
  match r with
  | .error e => (.error e, cs, env)
  | .ok lockedSecret => (.ok lockedSecret, { cs with secret := some lockedSecret }, env)

/-- Method lock: returns the held snapshot when present; otherwise reads
the secret (via the de-duplicated prepare), fails with
ConcurrentSecretError code 9 when the locked_at annotation parses to a
time whose grace period has not yet elapsed, and otherwise performs the
conditioned locking write. -/
def ConcurrentSecret.lock (cs : ConcurrentSecret) (env : Env) (now : Nat) :
    Except ClientError SecretMeta × ConcurrentSecret × Env :=
  match cs.secret with
  | some s => (.ok s, cs, env)
  | none =>
    match cs.prepare env with
    | (.error e, cs, env) => (.error e, cs, env)
    | (.ok secret, cs, env) =>
      match parseDateMs (lookupAnn secret.annotations "locked_at") with
      | some lockedAt =>
        if now ≤ lockedAt + cs.gracePeriodMs then
          (.error (.concurrentSecretError 9), cs, env)
        else
          cs.lockWrite env secret now
      | none => cs.lockWrite env secret now

/-- Method unlock: no-op without a snapshot; otherwise clears the
snapshot and the pending read, performs the conditioned write that drops
the locked_at annotation, and on success stores the updated secret back
into the snapshot field. -/
def ConcurrentSecret.unlock (cs : ConcurrentSecret) (env : Env) :
    Except ClientError Unit × ConcurrentSecret × Env :=
  match cs.secret with
  | none => (.ok (), cs, env)
  | some secret =>
    let cs := { cs with secret := none, pendingSecret := none }
    let anns := eraseAnn secret.annotations "locked_at"
    let (r, env) := clientUpdateSecret env
      { name := secret.name, etag := some secret.etag, annotations := some anns }
    match r with
    | .error e => (.error e, cs, env)
    | .ok updated => (.ok (), { cs with secret := some updated }, env)

/-- Method getLatestVersion: translates NOT_FOUND to none unless
throwOnNotFound is set. -/
def ConcurrentSecret.getLatestVersion (cs : ConcurrentSecret) (env : Env)
    (throwOnNotFound : Bool) : Except ClientError (Option Version) × Env :=
  let (r, env) := GetSecretVersion env cs.latestVersionName
  match r with
  | .ok v => (.ok (some v), env)
  | .error e =>
    if throwOnNotFound = false ∧ errCode e = some RpcCodes.NOT_FOUND then (.ok none, env)
    else (.error e, env)

/-- Method getLatestData: accesses the latest version payload, with the
same NOT_FOUND translation as getLatestVersion. -/
def ConcurrentSecret.getLatestData (cs : ConcurrentSecret) (env : Env)
    (throwOnNotFound : Bool) : Except ClientError (Option SecretData) × Env :=
  let (r, env) := AccessSecretVersion env cs.latestVersionName
  match r with
  | .ok d => (.ok (some d), env)
  | .error e =>
    if throwOnNotFound = false ∧ errCode e = some RpcCodes.NOT_FOUND then (.ok none, env)
    else (.error e, env)

/-- The try block of optimisticUpdate (everything between lock and the
finally clause): await the producer, read the latest version, add a new
version with the produced payload (Buffer.from is evaluated while
building that request and throws TypeError on a non string/buffer
value), record updatedVersionName, destroy the previous latest when it
was neither destroyed nor scheduled for destruction, and finally write
the updated_at annotation conditioned on the lock snapshot etag. -/
def ConcurrentSecret.optimisticUpdateBody (cs : ConcurrentSecret) (env : Env) (now : Nat)
    (secret : SecretMeta) (producer : Except ClientError JsValue) :
    Except ClientError JsValue × ConcurrentSecret × Env :=
  match producer with
  | .error e => (.error e, cs, env)
  | .ok secretData =>
    match cs.getLatestVersion env false with
    | (.error e, env) => (.error e, cs, env)
    | (.ok latestVersion, env) =>
      match bufferFrom secretData with
      | .error e => (.error e, cs, env)
      | .ok data =>
        match AddSecretVersion env secret.name (some data) now with
        | (.error e, env) => (.error e, cs, env)
        | (.ok newVersion, env) =>
          let cs := { cs with updatedVersionName := some newVersion.name }
          let destroyStep : Option ClientError × Env :=
            match latestVersion with
            | some lv =>
              if lv.state ≠ .destroyed ∧ lv.scheduledDestroyTime = none then
                match DestroySecretVersion env lv.name none now with
                | (.error e, env) => (some e, env)
                | (.ok _, env) => (none, env)
              else (none, env)
            | none => (none, env)
          match destroyStep with
          | (some e, env) => (.error e, cs, env)
          | (none, env) =>
            let (r, env) := clientUpdateSecret env
              { name := secret.name
                etag := some secret.etag
                annotations := some (setAnn secret.annotations "updated_at" (encodeTime now)) }
            match r with
            | .error e => (.error e, cs, env)
            | .ok updatedSecret => (.ok secretData, { cs with secret := some updatedSecret }, env)

/-- Method optimisticUpdate: lock (outside the try block, so a lock
failure propagates without running the cleanup), run the try block, then
the finally clause awaits unlock; per JS semantics an error thrown by
the finally clause replaces whatever the try block produced, and
otherwise the try-block outcome is returned. -/
def ConcurrentSecret.optimisticUpdate (cs : ConcurrentSecret) (env : Env) (now : Nat)
    (producer : Except ClientError JsValue) :
    Except ClientError JsValue × ConcurrentSecret × Env :=
  match cs.lock env now with
  | (.error e, cs, env) => (.error e, cs, env)
  | (.ok secret, cs, env) =>
    match cs.optimisticUpdateBody env now secret producer with
    | (rTry, cs, env) =>
      match cs.unlock env with
      | (.error e, cs, env) => (.error e, cs, env)
      | (.ok _, cs, env) => (rTry, cs, env)

/-- JS truthiness of an optional string: undefined, null and the empty
string are falsy. -/
def jsTruthyStr : Option String → Prop
  | none => False
  | some s => s ≠ ""

instance (v : Option String) : Decidable (jsTruthyStr v) := by
  unfold jsTruthyStr
  match v with
  | none => exact inferInstance
  | some _ => exact inferInstance

/-- Client instance state of class CachedSecret: the ConcurrentSecret
fields plus the cached value, the optional updateMethod (modelled by the
settled outcome of awaiting it) and the current version name. -/
structure CachedSecret extends ConcurrentSecret where
  value : Option String := none
  updateMethod : Option (Except ClientError JsValue) := none
  versionName : Option String := none
  deriving Repr, DecidableEq

/-- Method `_updateCachedSecret`: rotate through optimisticUpdate with
the configured updateMethod, adopt the produced result (via toString) as
the cached value, and record the updatedVersionName the rotation
produced.  An undefined updateMethod invoked as a function throws
TypeError inside the try block, modelled by a defaulted erroring
producer. -/
def CachedSecret.updateCachedSecret (c : CachedSecret) (env : Env) (now : Nat) :
    Except ClientError (Option String) × CachedSecret × Env :=
  let producer := c.updateMethod.getD (.error .typeError)
  match c.toConcurrentSecret.optimisticUpdate env now producer with
  | (.error e, cs2, env) => (.error e, { c with toConcurrentSecret := cs2 }, env)
  | (.ok v, cs2, env) =>
    let value2 := some v.asString
    (.ok value2,
      { c with toConcurrentSecret := cs2, value := value2, versionName := cs2.updatedVersionName },
      env)

/-- Method update: three policies.  Without an updateMethod or without a
truthy value, read the latest payload (hard read when no updateMethod),
falling through to rotation when nothing is found but an updateMethod
exists, otherwise adopting the read payload.  With an updateMethod but
no truthy versionName, read the latest payload softly; when absent
rotate, when its bytes differ from the cached value adopt it, and when
identical rotate.  Otherwise (updateMethod, value and versionName all
present) read the latest payload softly and adopt it when its name sorts
after the recorded versionName, else rotate.  Property accesses on a
null read result throw TypeError, as does Buffer.from on undefined
payload data. -/
def CachedSecret.update (c : CachedSecret) (env : Env) (now : Nat) :
    Except ClientError (Option String) × CachedSecret × Env :=
  if c.updateMethod = none ∨ ¬ jsTruthyStr c.value then
    match c.toConcurrentSecret.getLatestData env c.updateMethod.isNone with
    | (.error e, env) => (.error e, c, env)
    | (.ok secretData, env) =>
      if secretData = none ∧ c.updateMethod ≠ none then
        c.updateCachedSecret env now
      else
        match secretData with
        | none => (.error .typeError, c, env)
        | some sd =>
          let c := { c with versionName := some sd.name, value := sd.data }
          (.ok c.value, c, env)
  else if ¬ jsTruthyStr c.versionName then
    match c.toConcurrentSecret.getLatestData env false with
    | (.error e, env) => (.error e, c, env)
    | (.ok none, env) => c.updateCachedSecret env now
    | (.ok (some lvd), env) =>
      let c := { c with versionName := some lvd.name }
      match c.value with
      | none => (.error .typeError, c, env)
      | some v =>
        match lvd.data with
        | none => (.error .typeError, c, env)
        | some d =>
          if v ≠ d then
            let c := { c with value := some d }
            (.ok (some d), c, env)
          else
            c.updateCachedSecret env now
  else
    match c.toConcurrentSecret.getLatestData env false with
    | (.error e, env) => (.error e, c, env)
    | (.ok none, env) => (.error .typeError, c, env)
    | (.ok (some lvd), env) =>
      if strLt (c.versionName.getD "") lvd.name then
        match lvd.data with
        | none => (.error .typeError, c, env)
        | some d =>
          let c := { c with versionName := some lvd.name, value := some d }
          (.ok (some d), c, env)
      else
        c.updateCachedSecret env now

/-- A valid secret name reused by the concrete witnesses and
counterexamples below. -/
def exNm : String := "projects/1234/secrets/my-secret"

/-- A stored record with one enabled version carrying payload v1 and one
unrelated annotation. -/
def exFs : FakeSecretData :=
  { secret := { name := exNm, etag := "e0", annotations := [("foo", "bar")] }
    versions :=
      [{ version :=
           { name := exNm ++ "/versions/1", etag := "v1e", state := .enabled, createTime := 0 }
         data := some "v1" }] }

/-- A one-secret, one-enabled-version store fixture. -/
def exDb : Db := [(exNm, exFs)]

/-- Environment over the fixture store with a supply of fresh etags. -/
def exEnv : Env := { db := exDb, etags := ["f1", "f2", "f3", "f4", "f5", "f6"] }

/-- A stored record whose annotations carry a lock taken at time 1000. -/
def exLockedFs : FakeSecretData :=
  { secret :=
      { name := exNm, etag := "e0"
        annotations := [("foo", "bar"), ("locked_at", "1000")] }
    versions := [] }

/-- Environment over the locked fixture store. -/
def exLockedEnv : Env := { db := [(exNm, exLockedFs)], etags := ["f1"] }

/-- The fixture record with a retention ttl of 86400000 ms configured. -/
def exTtlFs : FakeSecretData :=
  { secret :=
      { name := exNm
        etag := "e0"
        annotations := [("foo", "bar")]
        versionDestroyTtl := some 86400000 }
    versions :=
      [{ version :=
           { name := exNm ++ "/versions/1", etag := "v1e", state := .enabled, createTime := 0 }
         data := some "v1" }] }

/-- Environment over the retention-ttl fixture store. -/
def exTtlEnv : Env := { db := [(exNm, exTtlFs)], etags := ["f1", "f2", "f3", "f4", "f5", "f6"] }

/-- A cached entry with value v1, an updateMethod producing v2 and
version 1 recorded. -/
def exCachedEntry : CachedSecret := { toConcurrentSecret := mkConcurrentSecret exNm, value := some "v1", updateMethod := some (.ok (.str "v2")), versionName := some (exNm ++ "/versions/1") }

/-- The stored version 1 of the fixture store. -/
def exV1Fv : FakeVersion := { version := { name := exNm ++ "/versions/1", etag := "v1e", state := .enabled, createTime := 0 }, data := some "v1" }

/-- A remote version 2, ahead of the cached version name. -/
def exAheadFv : FakeVersion := { version := { name := exNm ++ "/versions/2", etag := "v2e", state := .enabled, createTime := 5 }, data := some "v2remote" }

/-- A store whose only version is the remote version 2. -/
def exAheadFs : FakeSecretData := { secret := { name := exNm, etag := "e0", annotations := [] }, versions := [exAheadFv] }

/-- Environment over the version-2-ahead store. -/
def exAheadEnv : Env := { db := [(exNm, exAheadFs)], etags := ["f1"] }

/-- A dummy secret record used only as an Option default in witnesses. -/
def dummyMeta : SecretMeta := { name := "", etag := "", annotations := [] }

/-- Run of lock over the fixture store at time 1000. -/
def exC2Lock := (mkConcurrentSecret exNm).lock exEnv 1000

/-- The snapshot that lock run returned. -/
def exC2Locked : SecretMeta := exC2Lock.1.toOption.getD dummyMeta

/-- An unconditioned write by another client after the lock, rotating the
stored etag (the fake server rotates the etag of every updated
secret). -/
def exC2Ext := UpdateSecret exC2Lock.2.2 { name := exNm } []

/-- A rotate on the locking instance whose producer rejects, running
against the externally mutated store. -/
def exC2Run := exC2Lock.2.1.optimisticUpdate exC2Ext.2 2000 (.error (.userError "boom"))

/-- First unlock after the fixture lock run. -/
def exC3Unlock1 := exC2Lock.2.1.unlock exC2Lock.2.2

/-- Second unlock, issued right after the first one. -/
def exC3Unlock2 := exC3Unlock1.2.1.unlock exC3Unlock1.2.2

/-- The secret metadata produced by a successful annotation-masked
conditioned write: the stored metadata with the supplied annotations and
the fresh etag. -/
def annWritten (fs : FakeSecretData) (anns : AnnMap) (f : String) : SecretMeta :=
  { fs.secret with annotations := anns, etag := f }

/-- The secret metadata held after a successful locking write at time
now. -/
def lockedSecretOf (fs : FakeSecretData) (now : Nat) (f : String) : SecretMeta :=
  annWritten fs (setAnn fs.secret.annotations "locked_at" (encodeTime now)) f

/-- The version record AddSecretVersion mints for a secret currently
holding count versions. -/
def newVersionOf (parent : String) (count : Nat) (f : String) (now : Nat) : Version :=
  { name := pathJoin [parent, "versions", toString (count + 1)]
    etag := f
    state := .enabled
    createTime := now }

/-- The version record DestroySecretVersion leaves behind: disabled with
a scheduled destroy time under a retention ttl, destroyed immediately
without one. -/
def destroyedVersionOf (ttl : Option Nat) (v : Version) (f : String) (now : Nat) : Version :=
  match ttl with
  | some t => { v with etag := f, state := .disabled, scheduledDestroyTime := some (now + t) }
  | none => { v with etag := f, state := .destroyed, destroyTime := some now }

end GCSecret

namespace GCSecret

theorem logCall_db (env : Env) (c : Call) : (env.logCall c).db = env.db := rfl

theorem logCall_etags (env : Env) (c : Call) : (env.logCall c).etags = env.etags := rfl

theorem logCall_log (env : Env) (c : Call) : (env.logCall c).log = c :: env.log := rfl

theorem dbGet_dbSet_self (db : Db) (nm : String) (v : FakeSecretData) :
    dbGet (dbSet db nm v) nm = some v := by
  induction db with
  | nil => simp [dbGet, dbSet]
  | cons hd tl ih =>
    obtain ⟨k, v2⟩ := hd
    by_cases hk : k = nm
    · simp [dbGet, dbSet, hk]
    · simp [dbGet, dbSet, hk, ih]

theorem lookupAnn_setAnn_self (m : AnnMap) (k v : String) :
    lookupAnn (setAnn m k v) k = some v := by
  induction m with
  | nil => simp [lookupAnn, setAnn]
  | cons hd tl ih =>
    obtain ⟨k2, v2⟩ := hd
    by_cases hk : k2 = k
    · simp [lookupAnn, setAnn, hk]
    · simp [lookupAnn, setAnn, hk, ih]

theorem lookupAnn_setAnn_ne (m : AnnMap) (k v k2 : String) (h : k2 ≠ k) :
    lookupAnn (setAnn m k v) k2 = lookupAnn m k2 := by
  have hk2k : ¬(k = k2) := fun hkk => h hkk.symm
  induction m with
  | nil => simp [lookupAnn, setAnn, hk2k]
  | cons hd tl ih =>
    obtain ⟨k3, v3⟩ := hd
    by_cases hk : k3 = k
    · subst hk
      simp [lookupAnn, setAnn, hk2k]
    · simp [lookupAnn, setAnn, hk, ih]

theorem lookupAnn_eraseAnn_self (m : AnnMap) (k : String) :
    lookupAnn (eraseAnn m k) k = none := by
  induction m with
  | nil => simp [lookupAnn, eraseAnn]
  | cons hd tl ih =>
    obtain ⟨k2, v2⟩ := hd
    by_cases hk : k2 = k
    · simp [lookupAnn, eraseAnn, hk, ih]
    · simp [lookupAnn, eraseAnn, hk, ih]

theorem lookupAnn_eraseAnn_ne (m : AnnMap) (k k2 : String) (h : k2 ≠ k) :
    lookupAnn (eraseAnn m k) k2 = lookupAnn m k2 := by
  have hk2k : ¬(k = k2) := fun hkk => h hkk.symm
  induction m with
  | nil => simp [lookupAnn, eraseAnn]
  | cons hd tl ih =>
    obtain ⟨k3, v3⟩ := hd
    by_cases hk : k3 = k
    · subst hk
      simp [lookupAnn, eraseAnn, hk2k, ih]
    · simp [lookupAnn, eraseAnn, hk, ih]

/-- C1: for the remote store UpdateSecret as implemented by the fake
server, a conditioned write supplying a nonempty etag different from the
stored etag fails with FAILED_PRECONDITION and leaves the stored state
(annotations, etag) unchanged; a conditioned write supplying the current
etag succeeds and replaces the etag with the fresh value drawn from the
randomness stream; consequently, of two conditioned writes supplying the
same etag value, the second fails once the first succeeded, the fresh
etag being a new value. -/
theorem C1_updateSecret_conditioned_write
    (env : Env) (nm : String) (fs : FakeSecretData) (e f : String) (rest : List String)
    (p1 p2 : SecretPatch) (paths1 paths2 : List String)
    (hdb : dbGet env.db nm = some fs)
    (hf : env.etags = f :: rest)
    (hn1 : p1.name = nm) (he1 : p1.etag = some e) (hne : e ≠ "") :
    (e ≠ fs.secret.etag →
      (UpdateSecret env p1 paths1).1 = .error (.rpc RpcCodes.FAILED_PRECONDITION) ∧
      (UpdateSecret env p1 paths1).2.db = env.db) ∧
    (e = fs.secret.etag →
      (∃ s2, (UpdateSecret env p1 paths1).1 = .ok s2 ∧ s2.etag = f) ∧
      (dbGet (UpdateSecret env p1 paths1).2.db nm).map (fun r => r.secret.etag) = some f) ∧
    (e = fs.secret.etag → f ≠ e → p2.name = nm → p2.etag = some e →
      (UpdateSecret (UpdateSecret env p1 paths1).2 p2 paths2).1 =
        .error (.rpc RpcCodes.FAILED_PRECONDITION)) := by
  refine ⟨?_, ?_, ?_⟩
  · intro hmis
    have hguard : etagMismatch p1.etag fs.secret.etag := by
      rw [he1]; exact ⟨hne, hmis⟩
    simp [UpdateSecret, Env.logCall, hn1, hdb, hguard]
  · intro hmatch
    have hguard : ¬etagMismatch p1.etag fs.secret.etag := by
      rw [he1, ← hmatch]
      simp [etagMismatch]
    simp [UpdateSecret, Env.logCall, hn1, hdb, hguard, Env.takeFresh, hf, dbGet_dbSet_self]
  · intro hmatch hfe hn2 he2
    have hguard1 : ¬etagMismatch p1.etag fs.secret.etag := by
      rw [he1, ← hmatch]
      simp [etagMismatch]
    have hguard2 : etagMismatch (some e) f := ⟨hne, fun hh => hfe hh.symm⟩
    simp [UpdateSecret, Env.logCall, hn1, hn2, hdb, hguard1, he2, hguard2, Env.takeFresh, hf,
      dbGet_dbSet_self]

/-- Witness for C1 at a concrete store: the mismatching write fails and
preserves the store, the matching write installs the fresh etag, and the
repeated conditioned write fails. -/
theorem C1_updateSecret_conditioned_write_witness :
    ((UpdateSecret exEnv { name := exNm, etag := some "other" } []).1 =
        .error (.rpc RpcCodes.FAILED_PRECONDITION) ∧
      (UpdateSecret exEnv { name := exNm, etag := some "other" } []).2.db = exEnv.db) ∧
    ((∃ s2, (UpdateSecret exEnv { name := exNm, etag := some "e0" } []).1 = .ok s2 ∧
        s2.etag = "f1") ∧
      (dbGet (UpdateSecret exEnv { name := exNm, etag := some "e0" } []).2.db exNm).map
        (fun r => r.secret.etag) = some "f1") ∧
    (UpdateSecret (UpdateSecret exEnv { name := exNm, etag := some "e0" } []).2
        { name := exNm, etag := some "e0" } []).1 =
      .error (.rpc RpcCodes.FAILED_PRECONDITION) := by
  have h1 := C1_updateSecret_conditioned_write exEnv exNm
    ((dbGet exEnv.db exNm).getD { secret := { name := exNm, etag := "", annotations := [] }, versions := [] })
    "other" "f1" ["f2", "f3", "f4", "f5", "f6"]
    { name := exNm, etag := some "other" } { name := exNm, etag := some "other" } [] []
    (by decide) (by decide) rfl rfl (by decide)
  have h2 := C1_updateSecret_conditioned_write exEnv exNm
    ((dbGet exEnv.db exNm).getD { secret := { name := exNm, etag := "", annotations := [] }, versions := [] })
    "e0" "f1" ["f2", "f3", "f4", "f5", "f6"]
    { name := exNm, etag := some "e0" } { name := exNm, etag := some "e0" } [] []
    (by decide) (by decide) rfl rfl (by decide)
  exact ⟨h1.1 (by decide), h2.2.1 (by decide), h2.2.2 (by decide) (by decide) rfl rfl⟩


theorem clientUpdateSecret_ann_run (env : Env) (nm : String) (fs : FakeSecretData)
    (e : String) (anns : AnnMap) (f : String) (rest : List String)
    (hdb : dbGet env.db nm = some fs) (he : e = fs.secret.etag)
    (hf : env.etags = f :: rest) :
    clientUpdateSecret env { name := nm, etag := some e, annotations := some anns } =
      (.ok (annWritten fs anns f),
        { db := dbSet env.db nm { fs with secret := annWritten fs anns f }
          etags := rest
          log := .updateSecret :: env.log }) := by
  have hguard : ¬etagMismatch (some e) fs.secret.etag := by
    rw [he]
    simp [etagMismatch]
  simp [clientUpdateSecret, UpdateSecret, Env.logCall, hdb, hguard, Env.takeFresh, hf,
    annWritten, List.contains]

theorem prepare_run (cs : ConcurrentSecret) (env : Env) (fs : FakeSecretData)
    (hpending : cs.pendingSecret = none)
    (hvalid : validSecretName cs.name = true)
    (hdb : dbGet env.db cs.name = some fs) :
    cs.prepare env =
      (.ok fs.secret, { cs with pendingSecret := some (.ok fs.secret) },
        env.logCall .getSecret) := by
  simp [ConcurrentSecret.prepare, hpending, GetSecret, Env.logCall, hvalid, hdb]

theorem lock_run (cs : ConcurrentSecret) (env : Env) (now : Nat) (fs : FakeSecretData)
    (f : String) (rest : List String)
    (hsecret : cs.secret = none) (hpending : cs.pendingSecret = none)
    (hvalid : validSecretName cs.name = true)
    (hdb : dbGet env.db cs.name = some fs)
    (hname : fs.secret.name = cs.name)
    (hf : env.etags = f :: rest)
    (hgo : parseDateMs (lookupAnn fs.secret.annotations "locked_at") = none ∨
      (∃ T, parseDateMs (lookupAnn fs.secret.annotations "locked_at") = some T ∧
        T + cs.gracePeriodMs < now)) :
    cs.lock env now =
      (.ok (lockedSecretOf fs now f),
        { cs with pendingSecret := some (.ok fs.secret)
                  secret := some (lockedSecretOf fs now f) },
        { db := dbSet env.db cs.name { fs with secret := lockedSecretOf fs now f }
          etags := rest
          log := .updateSecret :: .getSecret :: env.log }) := by
  have hdb2 : dbGet (env.logCall .getSecret).db fs.secret.name = some fs := by
    rw [hname]
    exact hdb
  have hwr := clientUpdateSecret_ann_run (env.logCall .getSecret) fs.secret.name fs
    fs.secret.etag (setAnn fs.secret.annotations "locked_at" (encodeTime now)) f rest
    hdb2 rfl hf
  rw [hname] at hwr
  simp only [Env.logCall, logCall_db, logCall_log] at hwr
  rcases hgo with hnone | ⟨T, hT, hlt⟩
  · simp [ConcurrentSecret.lock, hsecret, prepare_run cs env fs hpending hvalid hdb, hnone,
      ConcurrentSecret.lockWrite, hwr, Env.logCall, lockedSecretOf, hname]
  · have hnle : ¬(now ≤ T + cs.gracePeriodMs) := not_le.mpr hlt
    simp [ConcurrentSecret.lock, hsecret, prepare_run cs env fs hpending hvalid hdb, hT, hnle,
      ConcurrentSecret.lockWrite, hwr, Env.logCall, lockedSecretOf, hname]

theorem lock_held_run (cs : ConcurrentSecret) (env : Env) (now : Nat) (fs : FakeSecretData)
    (T : Nat)
    (hsecret : cs.secret = none) (hpending : cs.pendingSecret = none)
    (hvalid : validSecretName cs.name = true)
    (hdb : dbGet env.db cs.name = some fs)
    (hT : parseDateMs (lookupAnn fs.secret.annotations "locked_at") = some T)
    (hle : now ≤ T + cs.gracePeriodMs) :
    cs.lock env now =
      (.error (.concurrentSecretError 9),
        { cs with pendingSecret := some (.ok fs.secret) },
        env.logCall .getSecret) := by
  simp [ConcurrentSecret.lock, hsecret, prepare_run cs env fs hpending hvalid hdb, hT, hle]

theorem unlock_run (cs : ConcurrentSecret) (env : Env) (s : SecretMeta) (fs : FakeSecretData)
    (f : String) (rest : List String)
    (hsecret : cs.secret = some s)
    (hdb : dbGet env.db s.name = some fs)
    (hetag : s.etag = fs.secret.etag)
    (hf : env.etags = f :: rest) :
    cs.unlock env =
      (.ok (),
        { cs with pendingSecret := none
                  secret := some (annWritten fs (eraseAnn s.annotations "locked_at") f) },
        { db := dbSet env.db s.name
            { fs with secret := annWritten fs (eraseAnn s.annotations "locked_at") f }
          etags := rest
          log := .updateSecret :: env.log }) := by
  have hwr := clientUpdateSecret_ann_run env s.name fs s.etag
    (eraseAnn s.annotations "locked_at") f rest hdb hetag hf
  simp [ConcurrentSecret.unlock, hsecret, hwr]

theorem getLatestVersion_run (cs : ConcurrentSecret) (env : Env) (fs : FakeSecretData)
    (hparent : parentOf cs.latestVersionName = cs.name)
    (hvp : versionPartOf cs.latestVersionName = "latest")
    (hdb : dbGet env.db cs.name = some fs) :
    cs.getLatestVersion env false =
      (.ok (fs.versions.head?.map FakeVersion.version), env.logCall .getSecretVersion) := by
  cases hhd : fs.versions.head? with
  | none =>
    simp [ConcurrentSecret.getLatestVersion, GetSecretVersion, hparent, hvp, hdb, hhd,
      Env.logCall, errCode, RpcCodes.NOT_FOUND]
  | some fv =>
    simp [ConcurrentSecret.getLatestVersion, GetSecretVersion, hparent, hvp, hdb, hhd,
      Env.logCall]

theorem getLatestData_run (cs : ConcurrentSecret) (env : Env) (fs : FakeSecretData)
    (hparent : parentOf cs.latestVersionName = cs.name)
    (hvp : versionPartOf cs.latestVersionName = "latest")
    (hdb : dbGet env.db cs.name = some fs) :
    cs.getLatestData env false =
      (.ok (fs.versions.head?.map (fun fv => { name := fv.version.name, data := fv.data })),
        env.logCall .accessSecretVersion) := by
  cases hhd : fs.versions.head? with
  | none =>
    simp [ConcurrentSecret.getLatestData, AccessSecretVersion, hparent, hvp, hdb, hhd,
      Env.logCall, errCode, RpcCodes.NOT_FOUND]
  | some fv =>
    simp [ConcurrentSecret.getLatestData, AccessSecretVersion, hparent, hvp, hdb, hhd,
      Env.logCall]

theorem addSecretVersion_run (env : Env) (parent : String) (fs : FakeSecretData)
    (data : Option String) (now : Nat) (f : String) (rest : List String)
    (hvalid : validSecretName parent = true)
    (hdb : dbGet env.db parent = some fs)
    (hf : env.etags = f :: rest) :
    AddSecretVersion env parent data now =
      (.ok (newVersionOf parent fs.versions.length f now),
        { db := dbSet env.db parent
            { fs with versions :=
                { version := newVersionOf parent fs.versions.length f now
                  data := data } :: fs.versions }
          etags := rest
          log := .addSecretVersion :: env.log }) := by
  simp [AddSecretVersion, Env.logCall, hvalid, hdb, Env.takeFresh, hf, newVersionOf]

theorem destroySecretVersion_run (env : Env) (name : String) (fs : FakeSecretData)
    (fv : FakeVersion) (now : Nat) (f : String) (rest : List String)
    (hdb : dbGet env.db (parentOf name) = some fs)
    (hfind : fs.versions.find? (fun v => v.version.name = name) = some fv)
    (hstate : fv.version.state ≠ .destroyed)
    (hsched : fv.version.scheduledDestroyTime = none)
    (hf : env.etags = f :: rest) :
    DestroySecretVersion env name none now =
      (.ok (destroyedVersionOf fs.secret.versionDestroyTtl fv.version f now),
        { db := dbSet env.db (parentOf name)
            { fs with versions := fs.versions.map (fun v =>
                if v.version.name = name then
                  { v with version := destroyedVersionOf fs.secret.versionDestroyTtl fv.version f now }
                else v) }
          etags := rest
          log := .destroySecretVersion :: env.log }) := by
  cases httl : fs.secret.versionDestroyTtl with
  | none =>
    simp [DestroySecretVersion, Env.logCall, hdb, hfind, hstate, hsched, etagMismatch,
      Env.takeFresh, hf, destroyedVersionOf, httl]
  | some t =>
    simp [DestroySecretVersion, Env.logCall, hdb, hfind, hstate, hsched, etagMismatch,
      Env.takeFresh, hf, destroyedVersionOf, httl]

/-- C4: an acquire on an instance not holding the lock: when the secret
read back carries a locked_at annotation parseable as T and
now ≤ T + gracePeriodMs, lock fails with ConcurrentSecretError code 9
and no remote write is attempted (only the read reached the store); when
locked_at is absent or unparseable, or now > T + gracePeriodMs, lock
proceeds to the conditioned write that sets locked_at to now while
preserving all other annotations. -/
theorem C4_lock_grace_period
    (cs : ConcurrentSecret) (env : Env) (now : Nat) (fs : FakeSecretData)
    (f : String) (rest : List String)
    (hsecret : cs.secret = none) (hpending : cs.pendingSecret = none)
    (hvalid : validSecretName cs.name = true)
    (hdb : dbGet env.db cs.name = some fs)
    (hname : fs.secret.name = cs.name)
    (hf : env.etags = f :: rest) :
    (∀ T, parseDateMs (lookupAnn fs.secret.annotations "locked_at") = some T →
      now ≤ T + cs.gracePeriodMs →
      (cs.lock env now).1 = .error (.concurrentSecretError 9) ∧
      (cs.lock env now).2.2.db = env.db ∧
      (cs.lock env now).2.2.log = .getSecret :: env.log) ∧
    ((parseDateMs (lookupAnn fs.secret.annotations "locked_at") = none ∨
        (∃ T, parseDateMs (lookupAnn fs.secret.annotations "locked_at") = some T ∧
          T + cs.gracePeriodMs < now)) →
      (∃ ls, (cs.lock env now).1 = .ok ls ∧ ls.etag = f ∧
        lookupAnn ls.annotations "locked_at" = some (encodeTime now) ∧
        (∀ k, k ≠ "locked_at" →
          lookupAnn ls.annotations k = lookupAnn fs.secret.annotations k)) ∧
      (dbGet (cs.lock env now).2.2.db cs.name).map (fun r => r.secret.annotations) =
        some (setAnn fs.secret.annotations "locked_at" (encodeTime now)) ∧
      (cs.lock env now).2.2.log = .updateSecret :: .getSecret :: env.log) := by
  refine ⟨?_, ?_⟩
  · intro T hT hle
    rw [lock_held_run cs env now fs T hsecret hpending hvalid hdb hT hle]
    exact ⟨rfl, rfl, rfl⟩
  · intro hgo
    rw [lock_run cs env now fs f rest hsecret hpending hvalid hdb hname hf hgo]
    refine ⟨⟨_, rfl, rfl, lookupAnn_setAnn_self _ _ _, ?_⟩, ?_, rfl⟩
    · intro k hk
      exact lookupAnn_setAnn_ne _ _ _ _ hk
    · simp [dbGet_dbSet_self, lockedSecretOf, annWritten]

/-- Witness for C4: at the concrete store locked at time 1000 with grace
period 60000, an acquire at 30000 fails with code 9 and leaves the store
untouched; at the concrete store without a locked_at annotation, an
acquire at 30000 performs the locking write and preserves the other
annotation. -/
theorem C4_lock_grace_period_witness :
    (((mkConcurrentSecret exNm).lock exLockedEnv 30000).1 =
        .error (.concurrentSecretError 9) ∧
      ((mkConcurrentSecret exNm).lock exLockedEnv 30000).2.2.db = exLockedEnv.db) ∧
    (∃ ls, ((mkConcurrentSecret exNm).lock exEnv 30000).1 = .ok ls ∧ ls.etag = "f1" ∧
      lookupAnn ls.annotations "locked_at" = some (encodeTime 30000) ∧
      (∀ k, k ≠ "locked_at" →
        lookupAnn ls.annotations k = lookupAnn exFs.secret.annotations k)) := by
  have h1 := C4_lock_grace_period (mkConcurrentSecret exNm) exLockedEnv 30000 exLockedFs
    "f1" [] rfl rfl (by decide) (by decide) (by decide) rfl
  have h2 := C4_lock_grace_period (mkConcurrentSecret exNm) exEnv 30000 exFs
    "f1" ["f2", "f3", "f4", "f5", "f6"] rfl rfl (by decide) (by decide) (by decide) rfl
  have hheld := h1.1 1000 (by decide) (by decide)
  exact ⟨⟨hheld.1, hheld.2.1⟩, (h2.2 (by left; decide)).1⟩

/-- C2 counterexample: a reachable execution in which the producer step
throws the error boom, the release write then fails FAILED_PRECONDITION
because another client rotated the etag while the lock was held, and the
caller observes the release failure, not boom: JS finally semantics let
a throwing cleanup replace the original error. -/
theorem C2_release_error_masks_counterexample :
    exC2Lock.1 = .ok exC2Locked ∧
    (∃ s2, exC2Ext.1 = .ok s2) ∧
    exC2Run.1 = .error (.rpc RpcCodes.FAILED_PRECONDITION) ∧
    exC2Run.1 ≠ .error (.userError "boom") := by
  refine ⟨by decide, ⟨exC2Ext.1.toOption.getD dummyMeta, by decide⟩, by decide, by decide⟩

/-- C2 amended: in rotate, when any of steps 1 to 6 fails with E the
release step still runs; the caller observes E exactly when the release
write does not itself throw, and observes the release failure instead
when it does. -/
theorem C2_release_precedence
    (cs : ConcurrentSecret) (env : Env) (now : Nat)
    (producer : Except ClientError JsValue) (secret : SecretMeta)
    (cs1 cs2 : ConcurrentSecret) (env1 env2 : Env) (rTry : Except ClientError JsValue)
    (hlock : cs.lock env now = (.ok secret, cs1, env1))
    (hbody : cs1.optimisticUpdateBody env1 now secret producer = (rTry, cs2, env2)) :
    ((cs2.unlock env2).1 = .ok () → (cs.optimisticUpdate env now producer).1 = rTry) ∧
    (∀ e, (cs2.unlock env2).1 = .error e →
      (cs.optimisticUpdate env now producer).1 = .error e) := by
  rcases hu : cs2.unlock env2 with ⟨r, cs3, env3⟩
  constructor
  · intro hok
    simp only [hu] at hok
    simp only [ConcurrentSecret.optimisticUpdate, hlock, hbody, hu, hok]
  · intro e herr
    simp only [hu] at herr
    simp only [ConcurrentSecret.optimisticUpdate, hlock, hbody, hu, herr]

/-- Witness for C2 amended: with an untouched store the producer failure
boom is re-thrown after the release write succeeds; on the externally
mutated store of the counterexample the release write fails and its
FAILED_PRECONDITION error is what the caller sees. -/
theorem C2_release_precedence_witness :
    ((mkConcurrentSecret exNm).optimisticUpdate exEnv 1000 (.error (.userError "boom"))).1 =
      .error (.userError "boom") ∧
    exC2Run.1 = .error (.rpc RpcCodes.FAILED_PRECONDITION) := by
  have ha := C2_release_precedence (mkConcurrentSecret exNm) exEnv 1000
    (.error (.userError "boom")) exC2Locked exC2Lock.2.1 exC2Lock.2.1 exC2Lock.2.2
    exC2Lock.2.2 (.error (.userError "boom")) (by decide) (by decide)
  have hb := C2_release_precedence exC2Lock.2.1 exC2Ext.2 2000
    (.error (.userError "boom")) exC2Locked exC2Lock.2.1 exC2Lock.2.1 exC2Ext.2 exC2Ext.2
    (.error (.userError "boom")) (by decide) (by decide)
  exact ⟨ha.1 (by decide), hb.2 (.rpc RpcCodes.FAILED_PRECONDITION) (by decide)⟩

/-- C3 counterexample: after a lock, the first unlock succeeds but leaves
the snapshot field set (it stores the post-unlock secret rather than
clearing it), and a second unlock in a row issues a second conditioned
store mutation, rotating the stored etag again. -/
theorem C3_unlock_not_idempotent_counterexample :
    exC3Unlock1.1 = .ok () ∧
    exC3Unlock1.2.1.secret ≠ none ∧
    countCall .updateSecret exC3Unlock1.2.2.log = 2 ∧
    countCall .updateSecret exC3Unlock2.2.2.log = 3 ∧
    (dbGet exC3Unlock2.2.2.db exNm).map (fun fs => fs.secret.etag) ≠
      (dbGet exC3Unlock1.2.2.db exNm).map (fun fs => fs.secret.etag) := by
  exact ⟨by decide, by decide, by decide, by decide, by decide⟩

/-- C3 amended: unlock on an instance holding no snapshot is a no-op
that succeeds without any remote call; unlock on a held snapshot clears
it before the conditioned write but re-sets it to the post-unlock secret
on success, so a second unlock in a row does not throw (absent external
interference) yet issues a second conditioned write that mutates the
secret again. -/
theorem C3_unlock_behavior
    (cs : ConcurrentSecret) (env : Env) (s : SecretMeta) (fs : FakeSecretData)
    (f f2 : String) (rest : List String)
    (hsecret : cs.secret = some s)
    (hdb : dbGet env.db s.name = some fs)
    (hetag : s.etag = fs.secret.etag)
    (hnm : fs.secret.name = s.name)
    (hf : env.etags = f :: f2 :: rest) :
    (∀ cs0 env0, ConcurrentSecret.secret cs0 = none → cs0.unlock env0 = (.ok (), cs0, env0)) ∧
    ((cs.unlock env).1 = .ok () ∧
      (cs.unlock env).2.1.secret =
        some (annWritten fs (eraseAnn s.annotations "locked_at") f) ∧
      (cs.unlock env).2.2.log = .updateSecret :: env.log) ∧
    (((cs.unlock env).2.1.unlock (cs.unlock env).2.2).1 = .ok () ∧
      ((cs.unlock env).2.1.unlock (cs.unlock env).2.2).2.2.log =
        .updateSecret :: .updateSecret :: env.log ∧
      (dbGet ((cs.unlock env).2.1.unlock (cs.unlock env).2.2).2.2.db s.name).map
        (fun r => r.secret.etag) = some f2) := by
  have hrun1 := unlock_run cs env s fs f (f2 :: rest) hsecret hdb hetag hf
  have hUname : (annWritten fs (eraseAnn s.annotations "locked_at") f).name = s.name := hnm
  have hdb2 : dbGet (dbSet env.db s.name
      { fs with secret := annWritten fs (eraseAnn s.annotations "locked_at") f })
      (annWritten fs (eraseAnn s.annotations "locked_at") f).name =
      some { fs with secret := annWritten fs (eraseAnn s.annotations "locked_at") f } := by
    rw [hUname]
    exact dbGet_dbSet_self _ _ _
  have hrun2 := unlock_run
    { cs with pendingSecret := none
              secret := some (annWritten fs (eraseAnn s.annotations "locked_at") f) }
    { db := dbSet env.db s.name
        { fs with secret := annWritten fs (eraseAnn s.annotations "locked_at") f }
      etags := f2 :: rest
      log := .updateSecret :: env.log }
    (annWritten fs (eraseAnn s.annotations "locked_at") f)
    { fs with secret := annWritten fs (eraseAnn s.annotations "locked_at") f }
    f2 rest rfl hdb2 rfl rfl
  refine ⟨?_, ?_, ?_⟩
  · intro cs0 env0 h0
    simp [ConcurrentSecret.unlock, h0]
  · rw [hrun1]
    exact ⟨rfl, rfl, rfl⟩
  · rw [hrun1]
    rw [hrun2]
    refine ⟨rfl, rfl, ?_⟩
    rw [hUname]
    rw [dbGet_dbSet_self]
    rfl

/-- Witness for C3 amended, at the fixture lock run: the first unlock
re-sets the snapshot and logs one write, the second unlock succeeds and
logs another write, leaving the store etag at the next fresh value. -/
theorem C3_unlock_behavior_witness :
    ((mkConcurrentSecret exNm).unlock exEnv = (.ok (), mkConcurrentSecret exNm, exEnv)) ∧
    (exC3Unlock1.1 = .ok () ∧ exC3Unlock2.1 = .ok () ∧
      (dbGet exC3Unlock2.2.2.db exNm).map (fun r => r.secret.etag) = some "f3") := by
  have h := C3_unlock_behavior exC2Lock.2.1 exC2Lock.2.2 exC2Locked
    ((dbGet exC2Lock.2.2.db exNm).getD { secret := dummyMeta, versions := [] })
    "f2" "f3" ["f4", "f5", "f6"]
    (by decide) (by decide) (by decide) (by decide) (by decide)
  exact ⟨h.1 (mkConcurrentSecret exNm) exEnv rfl, h.2.1.1, h.2.2.1, h.2.2.2.2⟩

theorem countCall_cons (c x : Call) (l : List Call) :
    countCall c (x :: l) = (if x = c then 1 else 0) + countCall c l := by
  by_cases hx : x = c
  · simp [countCall, List.countP_cons, hx, Nat.add_comm]
  · simp [countCall, List.countP_cons, hx]

theorem updateSecret_log (env : Env) (p : SecretPatch) (paths : List String) :
    (UpdateSecret env p paths).2.log = .updateSecret :: env.log := by
  unfold UpdateSecret
  cases hdb : dbGet env.db p.name with
  | none => simp [Env.logCall, hdb]
  | some fs =>
    by_cases hg : etagMismatch p.etag fs.secret.etag
    · simp [Env.logCall, hdb, hg]
    · cases he : env.etags with
      | nil => simp [Env.logCall, hdb, hg, Env.takeFresh, he]
      | cons f rest => simp [Env.logCall, hdb, hg, Env.takeFresh, he]

theorem updateSecret_mismatch_run (env : Env) (nm : String) (fs : FakeSecretData)
    (e : String) (p : SecretPatch) (paths : List String)
    (hdb : dbGet env.db nm = some fs)
    (hn : p.name = nm) (he : p.etag = some e) (hne : e ≠ "")
    (hmis : e ≠ fs.secret.etag) :
    UpdateSecret env p paths =
      (.error (.rpc RpcCodes.FAILED_PRECONDITION), env.logCall .updateSecret) := by
  have hguard : etagMismatch p.etag fs.secret.etag := by
    rw [he]
    exact ⟨hne, hmis⟩
  simp [UpdateSecret, Env.logCall, hn, hdb, hguard]

theorem lockWrite_ok_secret (cs : ConcurrentSecret) (env : Env) (sec : SecretMeta)
    (now : Nat) (s : SecretMeta) (cs1 : ConcurrentSecret) (env1 : Env)
    (h : cs.lockWrite env sec now = (.ok s, cs1, env1)) : cs1.secret = some s := by
  unfold ConcurrentSecret.lockWrite at h
  split at h
  split at h
  · simp at h
  · simp only [Prod.mk.injEq, Except.ok.injEq] at h
    obtain ⟨h1, h2, h3⟩ := h
    rw [← h2]
    simp [h1]

theorem lock_ok_secret (cs : ConcurrentSecret) (env : Env) (now : Nat) (s : SecretMeta)
    (cs1 : ConcurrentSecret) (env1 : Env)
    (h : cs.lock env now = (.ok s, cs1, env1)) : cs1.secret = some s := by
  unfold ConcurrentSecret.lock at h
  split at h
  · rename_i s0 heq
    simp only [Prod.mk.injEq, Except.ok.injEq] at h
    obtain ⟨h1, h2, h3⟩ := h
    rw [← h2, heq, h1]
  · split at h
    · simp at h
    · split at h
      · split at h
        · simp at h
        · exact lockWrite_ok_secret _ _ _ _ _ _ _ h
      · exact lockWrite_ok_secret _ _ _ _ _ _ _ h

theorem GetSecret_log (env : Env) (nm : String) :
    (GetSecret env nm).2.log = .getSecret :: env.log := by
  unfold GetSecret
  by_cases hv : validSecretName nm = true
  · cases hdb : dbGet env.db nm <;> simp [Env.logCall, hv, hdb]
  · simp [Env.logCall, hv]

theorem clientUpdateSecret_log (env : Env) (p : SecretPatch) :
    (clientUpdateSecret env p).2.log = .updateSecret :: env.log := by
  unfold clientUpdateSecret
  exact updateSecret_log _ _ _

theorem updateSecret_countCall (env : Env) (p : SecretPatch) (paths : List String) (c : Call)
    (h : c ≠ .updateSecret) :
    countCall c (UpdateSecret env p paths).2.log = countCall c env.log := by
  have hne : ¬(Call.updateSecret = c) := fun he => h he.symm
  rw [updateSecret_log, countCall_cons]
  simp [hne]

theorem clientUpdateSecret_countCall (env : Env) (p : SecretPatch) (c : Call)
    (h : c ≠ .updateSecret) :
    countCall c (clientUpdateSecret env p).2.log = countCall c env.log := by
  unfold clientUpdateSecret
  exact updateSecret_countCall _ _ _ _ h

theorem prepare_countCall (cs : ConcurrentSecret) (env : Env) (c : Call)
    (h : c ≠ .getSecret) :
    countCall c (cs.prepare env).2.2.log = countCall c env.log := by
  have hne : ¬(Call.getSecret = c) := fun he => h he.symm
  unfold ConcurrentSecret.prepare
  split
  · rfl
  · split
    rename_i r env2 heq
    have hlog : env2.log = .getSecret :: env.log := by
      have hx := GetSecret_log env cs.name
      rw [heq] at hx
      exact hx
    simp [hlog, countCall_cons, hne]

theorem lockWrite_env (cs : ConcurrentSecret) (env : Env) (sec : SecretMeta) (now : Nat) :
    (cs.lockWrite env sec now).2.2 =
      (clientUpdateSecret env
        { name := sec.name
          etag := some sec.etag
          annotations := some (setAnn sec.annotations "locked_at" (encodeTime now)) }).2 := by
  unfold ConcurrentSecret.lockWrite
  split
  rename_i r env2 heq
  rw [heq]
  cases r <;> rfl

theorem lockWrite_countCall (cs : ConcurrentSecret) (env : Env) (sec : SecretMeta)
    (now : Nat) (c : Call) (h : c ≠ .updateSecret) :
    countCall c (cs.lockWrite env sec now).2.2.log = countCall c env.log := by
  rw [lockWrite_env]
  exact clientUpdateSecret_countCall _ _ _ h

theorem lock_countCall (cs : ConcurrentSecret) (env : Env) (now : Nat) (c : Call)
    (hg : c ≠ .getSecret) (hu : c ≠ .updateSecret) :
    countCall c (cs.lock env now).2.2.log = countCall c env.log := by
  unfold ConcurrentSecret.lock
  split
  · rfl
  · split
    · rename_i e cs2 env2 heq
      have hx := prepare_countCall cs env c hg
      rw [heq] at hx
      exact hx
    · rename_i sec cs2 env2 heq
      have hx := prepare_countCall cs env c hg
      rw [heq] at hx
      split
      · split
        · exact hx
        · rw [lockWrite_countCall _ _ _ _ _ hu]
          exact hx
      · rw [lockWrite_countCall _ _ _ _ _ hu]
        exact hx

theorem unlock_env (cs : ConcurrentSecret) (env : Env) (s : SecretMeta)
    (hsecret : cs.secret = some s) :
    (cs.unlock env).2.2 =
      (clientUpdateSecret env
        { name := s.name
          etag := some s.etag
          annotations := some (eraseAnn s.annotations "locked_at") }).2 := by
  simp only [ConcurrentSecret.unlock, hsecret]
  split <;> rfl

theorem unlock_countCall (cs : ConcurrentSecret) (env : Env) (c : Call)
    (hu : c ≠ .updateSecret) :
    countCall c (cs.unlock env).2.2.log = countCall c env.log := by
  cases hs : cs.secret with
  | none => simp [ConcurrentSecret.unlock, hs]
  | some s =>
    rw [unlock_env cs env s hs]
    exact clientUpdateSecret_countCall _ _ _ hu

theorem unlock_some_log (cs : ConcurrentSecret) (env : Env) (s : SecretMeta)
    (hsecret : cs.secret = some s) :
    (cs.unlock env).2.2.log = .updateSecret :: env.log := by
  rw [unlock_env cs env s hsecret]
  exact clientUpdateSecret_log _ _

/-- C5 counterexample: a reachable rotate execution whose producer
throws boom makes no addSecretVersion and no destroySecretVersion call,
yet the caller does not observe the producer error: the release write
fails after an external etag rotation and its FAILED_PRECONDITION error
is what the caller sees, so the unqualified propagation clause of the
claim is false. -/
theorem C5_producer_error_masked_counterexample :
    countCall .addSecretVersion exC2Run.2.2.log = 0 ∧
    countCall .destroySecretVersion exC2Run.2.2.log = 0 ∧
    exC2Run.1 = .error (.rpc RpcCodes.FAILED_PRECONDITION) ∧
    exC2Run.1 ≠ .error (.userError "boom") := by
  exact ⟨by decide, by decide, by decide, by decide⟩

/-- C5 amended: in every rotate execution whose producer throws, no
addSecretVersion call and no destroySecretVersion call reaches the
store; whenever the lock step succeeded the unlock step still runs (its
conditioned write is issued), and the producer error is what the caller
observes whenever the unlock write succeeds (when that write fails, its
error is observed instead, as C2 records). -/
theorem C5_producer_failure_no_partial_writes
    (cs : ConcurrentSecret) (env : Env) (now : Nat) (e : ClientError) :
    countCall .addSecretVersion (cs.optimisticUpdate env now (.error e)).2.2.log =
      countCall .addSecretVersion env.log ∧
    countCall .destroySecretVersion (cs.optimisticUpdate env now (.error e)).2.2.log =
      countCall .destroySecretVersion env.log ∧
    (∃ e2, (cs.optimisticUpdate env now (.error e)).1 = .error e2) ∧
    (∀ s cs1 env1, cs.lock env now = (.ok s, cs1, env1) →
      (cs.optimisticUpdate env now (.error e)).2.2.log = .updateSecret :: env1.log ∧
      ((cs1.unlock env1).1 = .ok () →
        (cs.optimisticUpdate env now (.error e)).1 = .error e)) := by
  have hlockAdd := lock_countCall cs env now .addSecretVersion (by decide) (by decide)
  have hlockDes := lock_countCall cs env now .destroySecretVersion (by decide) (by decide)
  rcases hl : cs.lock env now with ⟨r, cs1, env1⟩
  rw [hl] at hlockAdd hlockDes
  cases r with
  | error e2 =>
    have hR : cs.optimisticUpdate env now (.error e) = (.error e2, cs1, env1) := by
      simp only [ConcurrentSecret.optimisticUpdate, hl]
    refine ⟨by rw [hR]; exact hlockAdd, by rw [hR]; exact hlockDes, ⟨e2, by rw [hR]⟩, ?_⟩
    intro s cs1x env1x hlok
    simp at hlok
  | ok s =>
    have hsec := lock_ok_secret cs env now s cs1 env1 hl
    have hulAdd := unlock_countCall cs1 env1 .addSecretVersion (by decide)
    have hulDes := unlock_countCall cs1 env1 .destroySecretVersion (by decide)
    have hulLog := unlock_some_log cs1 env1 s hsec
    rcases hu : cs1.unlock env1 with ⟨ru, cs3, env3⟩
    rw [hu] at hulAdd hulDes hulLog
    cases ru with
    | error e3 =>
      have hR : cs.optimisticUpdate env now (.error e) = (.error e3, cs3, env3) := by
        simp only [ConcurrentSecret.optimisticUpdate, hl,
          ConcurrentSecret.optimisticUpdateBody, hu]
      refine ⟨by rw [hR]; exact hulAdd.trans hlockAdd,
        by rw [hR]; exact hulDes.trans hlockDes, ⟨e3, by rw [hR]⟩, ?_⟩
      intro s2 cs1x env1x hlok
      simp only [Prod.mk.injEq, Except.ok.injEq] at hlok
      obtain ⟨hs2, hcs1, henv1⟩ := hlok
      subst hs2
      subst hcs1
      subst henv1
      refine ⟨by rw [hR]; exact hulLog, ?_⟩
      intro hok
      rw [hu] at hok
      simp at hok
    | ok u =>
      have hR : cs.optimisticUpdate env now (.error e) = (.error e, cs3, env3) := by
        simp only [ConcurrentSecret.optimisticUpdate, hl,
          ConcurrentSecret.optimisticUpdateBody, hu]
      refine ⟨by rw [hR]; exact hulAdd.trans hlockAdd,
        by rw [hR]; exact hulDes.trans hlockDes, ⟨e, by rw [hR]⟩, ?_⟩
      intro s2 cs1x env1x hlok
      simp only [Prod.mk.injEq, Except.ok.injEq] at hlok
      obtain ⟨hs2, hcs1, henv1⟩ := hlok
      subst hs2
      subst hcs1
      subst henv1
      exact ⟨by rw [hR]; exact hulLog, fun _ => by rw [hR]⟩

/-- Witness for C5 at the fixture store: the failing-producer rotate
returns the producer error, makes no addSecretVersion or
destroySecretVersion call, and issues the unlock write after the lock
succeeded. -/
theorem C5_producer_failure_no_partial_writes_witness :
    countCall .addSecretVersion
        ((mkConcurrentSecret exNm).optimisticUpdate exEnv 1000
          (.error (.userError "boom"))).2.2.log = 0 ∧
    countCall .destroySecretVersion
        ((mkConcurrentSecret exNm).optimisticUpdate exEnv 1000
          (.error (.userError "boom"))).2.2.log = 0 ∧
    ((mkConcurrentSecret exNm).optimisticUpdate exEnv 1000
        (.error (.userError "boom"))).1 = .error (.userError "boom") := by
  have h := C5_producer_failure_no_partial_writes (mkConcurrentSecret exNm) exEnv 1000
    (.userError "boom")
  have h4 := h.2.2.2 exC2Locked exC2Lock.2.1 exC2Lock.2.2 (by decide)
  exact ⟨by rw [h.1]; decide, by rw [h.2.1]; decide, h4.2 (by decide)⟩

/-- C9 counterexample: the grace-period acquire failure and the
etag-mismatch write failure carry the same machine-checkable code, 9
(FAILED_PRECONDITION), so the code alone does not distinguish the two
failure kinds. -/
theorem C9_error_code_counterexample :
    ((mkConcurrentSecret exNm).lock exLockedEnv 30000).1 =
      .error (.concurrentSecretError 9) ∧
    (UpdateSecret exLockedEnv { name := exNm, etag := some "stale" } []).1 =
      .error (.rpc RpcCodes.FAILED_PRECONDITION) ∧
    errCode (.concurrentSecretError 9) = errCode (.rpc RpcCodes.FAILED_PRECONDITION) := by
  exact ⟨by decide, by decide, by decide⟩

/-- C9 amended: every grace-period acquire failure is a
ConcurrentSecretError carrying code 9, the very FAILED_PRECONDITION code
carried by a version-tag-mismatch failure of a conditioned write; the
two kinds are distinguishable by error class (constructor), not by the
carried code. -/
theorem C9_error_codes
    (cs : ConcurrentSecret) (env : Env) (now : Nat) (fs : FakeSecretData) (T : Nat)
    (hsecret : cs.secret = none) (hpending : cs.pendingSecret = none)
    (hvalid : validSecretName cs.name = true)
    (hdb : dbGet env.db cs.name = some fs)
    (hT : parseDateMs (lookupAnn fs.secret.annotations "locked_at") = some T)
    (hle : now ≤ T + cs.gracePeriodMs)
    (env2 : Env) (nm2 : String) (fs2 : FakeSecretData) (e2 : String)
    (p : SecretPatch) (paths : List String)
    (hdb2 : dbGet env2.db nm2 = some fs2) (hn : p.name = nm2) (he : p.etag = some e2)
    (hne : e2 ≠ "") (hmis : e2 ≠ fs2.secret.etag) :
    (cs.lock env now).1 = .error (.concurrentSecretError 9) ∧
    (UpdateSecret env2 p paths).1 = .error (.rpc RpcCodes.FAILED_PRECONDITION) ∧
    errCode (.concurrentSecretError 9) = some RpcCodes.FAILED_PRECONDITION ∧
    errCode (.rpc RpcCodes.FAILED_PRECONDITION) = some RpcCodes.FAILED_PRECONDITION ∧
    (ClientError.concurrentSecretError 9) ≠ .rpc RpcCodes.FAILED_PRECONDITION := by
  refine ⟨?_, ?_, rfl, rfl, by decide⟩
  · rw [lock_held_run cs env now fs T hsecret hpending hvalid hdb hT hle]
  · rw [updateSecret_mismatch_run env2 nm2 fs2 e2 p paths hdb2 hn he hne hmis]

/-- Witness for C9 amended at the concrete fixtures. -/
theorem C9_error_codes_witness :
    ((mkConcurrentSecret exNm).lock exLockedEnv 30000).1 =
      .error (.concurrentSecretError 9) ∧
    (UpdateSecret exEnv { name := exNm, etag := some "stale" } []).1 =
      .error (.rpc RpcCodes.FAILED_PRECONDITION) ∧
    (ClientError.concurrentSecretError 9) ≠ .rpc RpcCodes.FAILED_PRECONDITION := by
  have h := C9_error_codes (mkConcurrentSecret exNm) exLockedEnv 30000 exLockedFs 1000
    rfl rfl (by decide) (by decide) (by decide) (by decide)
    exEnv exNm exFs "stale" { name := exNm, etag := some "stale" } []
    (by decide) rfl rfl (by decide) (by decide)
  exact ⟨h.1, h.2.1, h.2.2.2.2⟩

theorem body_other_run (cs : ConcurrentSecret) (env : Env) (now : Nat) (sec : SecretMeta)
    (tg : String) (fs : FakeSecretData)
    (hparent : parentOf cs.latestVersionName = cs.name)
    (hvp : versionPartOf cs.latestVersionName = "latest")
    (hdb : dbGet env.db cs.name = some fs) :
    cs.optimisticUpdateBody env now sec (.ok (.other tg)) =
      (.error .typeError, cs, env.logCall .getSecretVersion) := by
  simp only [ConcurrentSecret.optimisticUpdateBody,
    getLatestVersion_run cs env fs hparent hvp hdb]
  simp [bufferFrom]

/-- C6: when the producer resolves with a value that is neither a string
nor a byte buffer, rotate fails with the TypeError that Buffer.from
raises while building the addSecretVersion request (the fatal
InvalidProducerResult usage error of the taxonomy), before any write of
the rotation sequence reaches the store: the call log gains only the
acquire read, the acquire and release annotation writes and the latest
version read; the version list is unchanged and the updated_at
annotation is untouched. -/
theorem C6_invalid_producer_no_write
    (cs : ConcurrentSecret) (env : Env) (now : Nat) (tg : String) (fs : FakeSecretData)
    (f f2 : String) (rest : List String)
    (hsecret : cs.secret = none) (hpending : cs.pendingSecret = none)
    (hvalid : validSecretName cs.name = true)
    (hdb : dbGet env.db cs.name = some fs)
    (hname : fs.secret.name = cs.name)
    (hparent : parentOf cs.latestVersionName = cs.name)
    (hvp : versionPartOf cs.latestVersionName = "latest")
    (hgo : parseDateMs (lookupAnn fs.secret.annotations "locked_at") = none)
    (hf : env.etags = f :: f2 :: rest) :
    (cs.optimisticUpdate env now (.ok (.other tg))).1 = .error .typeError ∧
    (cs.optimisticUpdate env now (.ok (.other tg))).2.2.log =
      [.updateSecret, .getSecretVersion, .updateSecret, .getSecret] ++ env.log ∧
    (dbGet (cs.optimisticUpdate env now (.ok (.other tg))).2.2.db cs.name).map
      (fun r => r.versions) = some fs.versions ∧
    (dbGet (cs.optimisticUpdate env now (.ok (.other tg))).2.2.db cs.name).map
      (fun r => lookupAnn r.secret.annotations "updated_at") =
      some (lookupAnn fs.secret.annotations "updated_at") := by
  have hlock := lock_run cs env now fs f (f2 :: rest) hsecret hpending hvalid hdb hname hf
    (Or.inl hgo)
  have hb := body_other_run
    { cs with pendingSecret := some (.ok fs.secret), secret := some (lockedSecretOf fs now f) }
    { db := dbSet env.db cs.name { fs with secret := lockedSecretOf fs now f }
      etags := f2 :: rest
      log := .updateSecret :: .getSecret :: env.log }
    now (lockedSecretOf fs now f) tg { fs with secret := lockedSecretOf fs now f }
    hparent hvp (dbGet_dbSet_self _ _ _)
  have hname2 : (lockedSecretOf fs now f).name = cs.name := hname
  have hdb2 : dbGet (Env.logCall
      { db := dbSet env.db cs.name { fs with secret := lockedSecretOf fs now f }
        etags := f2 :: rest
        log := .updateSecret :: .getSecret :: env.log } .getSecretVersion).db
      (lockedSecretOf fs now f).name =
      some { fs with secret := lockedSecretOf fs now f } := by
    rw [hname2]
    exact dbGet_dbSet_self _ _ _
  have hu := unlock_run
    { cs with pendingSecret := some (.ok fs.secret), secret := some (lockedSecretOf fs now f) }
    (Env.logCall
      { db := dbSet env.db cs.name { fs with secret := lockedSecretOf fs now f }
        etags := f2 :: rest
        log := .updateSecret :: .getSecret :: env.log } .getSecretVersion)
    (lockedSecretOf fs now f) { fs with secret := lockedSecretOf fs now f }
    f2 rest rfl hdb2 rfl rfl
  simp only [Env.logCall] at hb hu
  simp only [ConcurrentSecret.optimisticUpdate, hlock, hb, hu, Env.logCall]
  refine ⟨trivial, rfl, ?_, ?_⟩
  · rw [hname2, dbGet_dbSet_self]
    rfl
  · rw [hname2, dbGet_dbSet_self]
    show some (lookupAnn (eraseAnn (setAnn fs.secret.annotations "locked_at"
        (encodeTime now)) "locked_at") "updated_at") =
      some (lookupAnn fs.secret.annotations "updated_at")
    rw [lookupAnn_eraseAnn_ne _ _ _ (by decide), lookupAnn_setAnn_ne _ _ _ _ (by decide)]

/-- Witness for C6 at the fixture store with producer result tagged
other: the rotate fails with TypeError, logs exactly the four
acquire/release calls, and leaves the single stored version and the
absent updated_at annotation untouched. -/
theorem C6_invalid_producer_no_write_witness :
    ((mkConcurrentSecret exNm).optimisticUpdate exEnv 1000 (.ok (.other "weird"))).1 =
      .error .typeError ∧
    ((mkConcurrentSecret exNm).optimisticUpdate exEnv 1000 (.ok (.other "weird"))).2.2.log =
      [.updateSecret, .getSecretVersion, .updateSecret, .getSecret] ++ exEnv.log ∧
    (dbGet ((mkConcurrentSecret exNm).optimisticUpdate exEnv 1000
        (.ok (.other "weird"))).2.2.db exNm).map (fun r => r.versions) =
      some exFs.versions := by
  have h := C6_invalid_producer_no_write (mkConcurrentSecret exNm) exEnv 1000 "weird" exFs
    "f1" "f2" ["f3", "f4", "f5", "f6"] rfl rfl (by decide) (by decide) (by decide)
    (by decide) (by decide) (by decide) rfl
  exact ⟨h.1, h.2.1, h.2.2.1⟩

/-- C8: scenario B.  On a secret whose only version is enabled with
payload v1 and no scheduled destruction, a successful rotate producing
v2 adds version 2 with payload v2 as the new latest (head of the version
list), records its name as updatedVersionName, and requests destruction
of version 1: with a retention ttl configured version 1 becomes disabled
with a scheduled destroy time, without one it is destroyed immediately
with a destroy time. -/
theorem C8_rotate_scenarioB
    (cs : ConcurrentSecret) (env : Env) (now : Nat) (fs : FakeSecretData) (v1 : FakeVersion)
    (f1 f2 f3 f4 f5 : String) (rest : List String)
    (hsecret : cs.secret = none) (hpending : cs.pendingSecret = none)
    (hvalid : validSecretName cs.name = true)
    (hdb : dbGet env.db cs.name = some fs)
    (hname : fs.secret.name = cs.name)
    (hparent : parentOf cs.latestVersionName = cs.name)
    (hvp : versionPartOf cs.latestVersionName = "latest")
    (hgo : parseDateMs (lookupAnn fs.secret.annotations "locked_at") = none)
    (hvers : fs.versions = [v1])
    (hdata : v1.data = some "v1")
    (hstate : v1.version.state = .enabled)
    (hsched : v1.version.scheduledDestroyTime = none)
    (hvparent : parentOf v1.version.name = cs.name)
    (hnewname : pathJoin [cs.name, "versions", toString 2] ≠ v1.version.name)
    (hf : env.etags = f1 :: f2 :: f3 :: f4 :: f5 :: rest) :
    (cs.optimisticUpdate env now (.ok (.str "v2"))).1 = .ok (.str "v2") ∧
    (dbGet (cs.optimisticUpdate env now (.ok (.str "v2"))).2.2.db cs.name).map
      (fun r => r.versions) =
      some [{ version := newVersionOf cs.name 1 f2 now, data := some "v2" },
        { version := destroyedVersionOf fs.secret.versionDestroyTtl v1.version f3 now
          data := some "v1" }] ∧
    (cs.optimisticUpdate env now (.ok (.str "v2"))).2.1.updatedVersionName =
      some (pathJoin [cs.name, "versions", toString 2]) ∧
    (∀ t, fs.secret.versionDestroyTtl = some t →
      (destroyedVersionOf fs.secret.versionDestroyTtl v1.version f3 now).state = .disabled ∧
      (destroyedVersionOf fs.secret.versionDestroyTtl v1.version f3 now).scheduledDestroyTime =
        some (now + t)) ∧
    (fs.secret.versionDestroyTtl = none →
      (destroyedVersionOf fs.secret.versionDestroyTtl v1.version f3 now).state = .destroyed ∧
      (destroyedVersionOf fs.secret.versionDestroyTtl v1.version f3 now).destroyTime =
        some now) := by
  refine ⟨?_, ?_, ?_, ?_, ?_⟩
  case refine_4 =>
    intro t ht
    simp [destroyedVersionOf, ht]
  case refine_5 =>
    intro ht
    simp [destroyedVersionOf, ht]
  all_goals
    simp [ConcurrentSecret.optimisticUpdate, ConcurrentSecret.lock, ConcurrentSecret.prepare,
      ConcurrentSecret.lockWrite, ConcurrentSecret.optimisticUpdateBody, ConcurrentSecret.unlock,
      ConcurrentSecret.getLatestVersion, GetSecret, GetSecretVersion, AddSecretVersion,
      DestroySecretVersion, UpdateSecret, clientUpdateSecret, Env.logCall, Env.takeFresh,
      bufferFrom, etagMismatch, errCode, dbGet_dbSet_self, hsecret, hpending, hvalid, hdb,
      hname, hparent, hvp, hgo, hvers, hstate, hsched, hvparent, hnewname, hf, hdata,
      newVersionOf, destroyedVersionOf, lockedSecretOf, annWritten]

/-- Witness for C8 at the concrete fixtures: without a ttl version 1 is
destroyed immediately; with a ttl of 86400000 ms version 1 is disabled
with destruction scheduled at now + ttl; in both runs version 2 carries
payload v2 and is the new latest. -/
theorem C8_rotate_scenarioB_witness :
    ((mkConcurrentSecret exNm).optimisticUpdate exEnv 1000 (.ok (.str "v2"))).1 =
      .ok (.str "v2") ∧
    (dbGet ((mkConcurrentSecret exNm).optimisticUpdate exEnv 1000
        (.ok (.str "v2"))).2.2.db exNm).map (fun r => r.versions) =
      some [{ version := newVersionOf exNm 1 "f2" 1000, data := some "v2" },
        { version := destroyedVersionOf none
            { name := exNm ++ "/versions/1", etag := "v1e", state := .enabled, createTime := 0 }
            "f3" 1000
          data := some "v1" }] ∧
    (destroyedVersionOf none
      { name := exNm ++ "/versions/1", etag := "v1e", state := .enabled, createTime := 0 }
      "f3" 1000).state = .destroyed ∧
    ((mkConcurrentSecret exNm).optimisticUpdate exTtlEnv 1000 (.ok (.str "v2"))).1 =
      .ok (.str "v2") ∧
    (destroyedVersionOf (some 86400000)
      { name := exNm ++ "/versions/1", etag := "v1e", state := .enabled, createTime := 0 }
      "f3" 1000).state = .disabled ∧
    (destroyedVersionOf (some 86400000)
      { name := exNm ++ "/versions/1", etag := "v1e", state := .enabled, createTime := 0 }
      "f3" 1000).scheduledDestroyTime = some (1000 + 86400000) := by
  have h1 := C8_rotate_scenarioB (mkConcurrentSecret exNm) exEnv 1000 exFs
    { version := { name := exNm ++ "/versions/1", etag := "v1e", state := .enabled, createTime := 0 }
      data := some "v1" }
    "f1" "f2" "f3" "f4" "f5" ["f6"]
    rfl rfl (by decide) (by decide) (by decide) (by decide) (by decide) (by decide)
    (by decide) (by decide) (by decide) (by decide) (by decide) (by decide) rfl
  have h2 := C8_rotate_scenarioB (mkConcurrentSecret exNm) exTtlEnv 1000 exTtlFs
    { version := { name := exNm ++ "/versions/1", etag := "v1e", state := .enabled, createTime := 0 }
      data := some "v1" }
    "f1" "f2" "f3" "f4" "f5" ["f6"]
    rfl rfl (by decide) (by decide) (by decide) (by decide) (by decide) (by decide)
    (by decide) (by decide) (by decide) (by decide) (by decide) (by decide) rfl
  exact ⟨h1.1, h1.2.1, (h1.2.2.2.2 (by decide)).1, h2.1,
    (h2.2.2.2.1 86400000 (by decide)).1, (h2.2.2.2.1 86400000 (by decide)).2⟩

/-- C10: with an updateMethod configured, a truthy cached value and a
known versionName, when the store answers the latest-version access with
NOT_FOUND (getLatestData yields null), update throws the TypeError of
dereferencing null rather than a taxonomy error or a fall-through to
rotation: no further call reaches the store and the instance is left
unchanged. -/
theorem C10_update_null_latest_typeError
    (c : CachedSecret) (env : Env) (now : Nat) (p : Except ClientError JsValue)
    (fs : FakeSecretData)
    (hmeth : c.updateMethod = some p)
    (hval : jsTruthyStr c.value)
    (hvn : jsTruthyStr c.versionName)
    (hparent : parentOf c.latestVersionName = c.name)
    (hvp : versionPartOf c.latestVersionName = "latest")
    (hdb : dbGet env.db c.name = some fs)
    (hvers : fs.versions = []) :
    (c.update env now).1 = .error .typeError ∧
    (c.update env now).2.2.log = .accessSecretVersion :: env.log ∧
    (c.update env now).2.2.db = env.db ∧
    (c.update env now).2.1 = c := by
  have hc1 : ¬(c.updateMethod = none ∨ ¬jsTruthyStr c.value) := by
    rintro (h | h)
    · rw [hmeth] at h
      exact Option.noConfusion h
    · exact h hval
  have hc2 : ¬¬jsTruthyStr c.versionName := not_not_intro hvn
  have hgd := getLatestData_run c.toConcurrentSecret env fs hparent hvp hdb
  rw [hvers] at hgd
  simp only [List.head?_nil, Option.map_none'] at hgd
  simp [CachedSecret.update, hc1, hc2, hgd, Env.logCall]

/-- Witness for C10: at a store holding the secret with zero versions,
update on a fully-populated cached entry fails with TypeError after the
single access call. -/
theorem C10_update_null_latest_typeError_witness :
    (CachedSecret.update
      { toConcurrentSecret := mkConcurrentSecret exNm, value := some "x"
        updateMethod := some (.ok (.str "y")), versionName := some (exNm ++ "/versions/1") }
      { db := [(exNm, { secret := { name := exNm, etag := "e0", annotations := [] }, versions := [] })]
        etags := ["f1"] } 1000).1 = .error .typeError := by
  have h := C10_update_null_latest_typeError
    { toConcurrentSecret := mkConcurrentSecret exNm, value := some "x"
      updateMethod := some (.ok (.str "y")), versionName := some (exNm ++ "/versions/1") }
    { db := [(exNm, { secret := { name := exNm, etag := "e0", annotations := [] }, versions := [] })]
      etags := ["f1"] } 1000 (.ok (.str "y"))
    { secret := { name := exNm, etag := "e0", annotations := [] }, versions := [] }
    rfl (by decide) (by decide) (by decide) (by decide) (by decide) rfl
  exact h.1

/-- C7: with an updateMethod configured, a truthy cached value and a
known versionName, update reads the latest version: when its name sorts
lexicographically after the recorded versionName the entry adopts the
remote payload and name without any rotation call; otherwise it rotates
through optimisticUpdate with the updateMethod, adopts the produced
value, and records the newly created version name. -/
theorem C7_cached_update_policy3
    (c : CachedSecret) (env : Env) (now : Nat) (fs : FakeSecretData) (fv : FakeVersion)
    (d newData : String) (f1 f2 f3 f4 f5 : String) (rest : List String)
    (hmeth : c.updateMethod = some (.ok (.str newData)))
    (hval : jsTruthyStr c.value)
    (hvn : jsTruthyStr c.versionName)
    (hparent : parentOf c.latestVersionName = c.name)
    (hvp : versionPartOf c.latestVersionName = "latest")
    (hdb : dbGet env.db c.name = some fs)
    (hvers : fs.versions = [fv])
    (hd : fv.data = some d) :
    (strLt (c.versionName.getD "") fv.version.name →
      (c.update env now).1 = .ok (some d) ∧
      (c.update env now).2.1.value = some d ∧
      (c.update env now).2.1.versionName = some fv.version.name ∧
      (c.update env now).2.2.log = .accessSecretVersion :: env.log) ∧
    (¬strLt (c.versionName.getD "") fv.version.name →
      c.secret = none → c.pendingSecret = none →
      validSecretName c.name = true →
      fs.secret.name = c.name →
      parseDateMs (lookupAnn fs.secret.annotations "locked_at") = none →
      fv.version.state = .enabled →
      fv.version.scheduledDestroyTime = none →
      parentOf fv.version.name = c.name →
      pathJoin [c.name, "versions", toString 2] ≠ fv.version.name →
      env.etags = f1 :: f2 :: f3 :: f4 :: f5 :: rest →
      (c.update env now).1 = .ok (some newData) ∧
      (c.update env now).2.1.value = some newData ∧
      (c.update env now).2.1.versionName = some (pathJoin [c.name, "versions", toString 2])) := by
  have hc1 : ¬(c.updateMethod = none ∨ ¬jsTruthyStr c.value) := by
    rintro (h | h)
    · rw [hmeth] at h
      exact Option.noConfusion h
    · exact h hval
  have hc2 : ¬¬jsTruthyStr c.versionName := not_not_intro hvn
  have hgd := getLatestData_run c.toConcurrentSecret env fs hparent hvp hdb
  rw [hvers] at hgd
  simp only [List.head?_cons, Option.map_some'] at hgd
  constructor
  · intro hlt
    simp [CachedSecret.update, hc1, hc2, hgd, hlt, hd, Env.logCall]
  · intro hnlt hsecret hpending hvalid hname hgo hstate hsched hvparent hnewname hf
    simp [CachedSecret.update, hc1, hc2, hgd, hnlt, hd, CachedSecret.updateCachedSecret, hmeth,
      JsValue.asString,
      ConcurrentSecret.optimisticUpdate, ConcurrentSecret.lock, ConcurrentSecret.prepare,
      ConcurrentSecret.lockWrite, ConcurrentSecret.optimisticUpdateBody, ConcurrentSecret.unlock,
      ConcurrentSecret.getLatestVersion, GetSecret, GetSecretVersion, AddSecretVersion,
      DestroySecretVersion, UpdateSecret, clientUpdateSecret, Env.logCall, Env.takeFresh,
      bufferFrom, etagMismatch, errCode, dbGet_dbSet_self, hsecret, hpending, hvalid, hdb,
      hname, hparent, hvp, hgo, hvers, hstate, hsched, hvparent, hnewname, hf, hval, hvn,
      newVersionOf, destroyedVersionOf, lockedSecretOf, annWritten]


/-- Witness for C7: with a remote version 2 ahead of the cached version
1 the entry adopts the remote payload without rotation; with the remote
still at version 1 the entry rotates and records version 2 as its
versionName. -/
theorem C7_cached_update_policy3_witness :
    ((exCachedEntry.update exAheadEnv 1000).1 = .ok (some "v2remote")) ∧
    ((exCachedEntry.update exEnv 1000).1 = .ok (some "v2")) ∧
    ((exCachedEntry.update exEnv 1000).2.1.versionName =
      some (pathJoin [exNm, "versions", toString 2])) := by
  have ha := C7_cached_update_policy3 exCachedEntry exAheadEnv 1000 exAheadFs exAheadFv
    "v2remote" "v2" "f1" "f1" "f1" "f1" "f1" []
    rfl (by decide) (by decide) (by decide) (by decide) (by decide) rfl rfl
  have hb := C7_cached_update_policy3 exCachedEntry exEnv 1000 exFs exV1Fv
    "v1" "v2" "f1" "f2" "f3" "f4" "f5" ["f6"]
    rfl (by decide) (by decide) (by decide) (by decide) (by decide) (by decide) rfl
  have hbr := hb.2 (by decide) rfl rfl (by decide) (by decide) (by decide) (by decide)
    (by decide) (by decide) (by decide) rfl
  exact ⟨(ha.1 (by decide)).1, hbr.1, hbr.2.2⟩
